import Mathlib

/-!
Shallow embedding of the numeric core of the PriceChart component
(src/screens/HomeScreen/PriceChart.tsx of rekt-react-native):
the leverage-lens viewport (viewportFor), the isolated-margin liquidation
approximation (isolatedLiq), the PnL grid ticks (pnlTicks), the
price-to-pixel projector (calculateLinePosition), the liquidation gating
at the call site (gatingOk / projectedLiq / liqToShow), and the hysteresis
recentering effect (recenterTick / runRecenter).

JavaScript float64 arithmetic is modelled over the rationals; the
quantities involved (prices, leverage, ratios) are exact decimals in every
statement below, so the rational model matches the float computation on
those inputs.
-/

set_option autoImplicit false

namespace PriceChart

/-- Side of a position: `export type Side = 'long' | 'short'`. -/
inductive Side where
  | long
  | short
deriving DecidableEq, Repr

/-- Result of `viewportFor`: `{ yMin, yMax }`. -/
structure Viewport where
  yMin : ℚ
  yMax : ℚ
deriving DecidableEq, Repr

/-- `viewportFor` from PriceChart.tsx:
`halfSpanByL = anchor * (pnlSpan / Math.max(1, leverage))`,
`floor = anchor * (minBandBps / 1e4)`, `half = max`,
returns `{ yMin: anchor - half, yMax: anchor + half }`. -/
def viewportFor (anchor leverage pnlSpan minBandBps : ℚ) : Viewport :=
  let halfSpanByL := anchor * (pnlSpan / max 1 leverage)
  let floorBand := anchor * (minBandBps / 10000)
  let half := max halfSpanByL floorBand
  { yMin := anchor - half, yMax := anchor + half }

/-- `isolatedLiq` from PriceChart.tsx:
`L = Math.max(1, leverage)`; long: `entry * (1 - 1 / L) / (1 - mmr)`;
short: `entry * (1 + 1 / L) / (1 + mmr)`. -/
def isolatedLiq (entry leverage : ℚ) (side : Side) (mmr : ℚ) : ℚ :=
  let L := max 1 leverage
  match side with
  | Side.long => entry * (1 - 1 / L) / (1 - mmr)
  | Side.short => entry * (1 + 1 / L) / (1 + mmr)

/-- `pnlTicks` from PriceChart.tsx:
levels `[-1, -0.5, -0.25, 0, 0.25, 0.5, 1]` scaled by `span`,
`L = Math.max(1, leverage)`, each level maps to
`{ pnlPct: pnl * 100, price: anchor * (1 + pnl / L) }`. -/
def pnlTicks (anchor leverage span : ℚ) : List (ℚ × ℚ) :=
  let levels := [-1, -1/2, -1/4, 0, 1/4, 1/2, 1].map (fun v => v * span)
  let L := max 1 leverage
  levels.map (fun pnl => (pnl * 100, anchor * (1 + pnl / L)))

/-- `calculateLinePosition` from PriceChart.tsx: with `range = yMax - yMin`,
`topOffset = 20`, `bottomOffset = 20`, `plotArea = chartHeight - 40`,
returns `topOffset + plotArea * (1 - (price - yMin) / range)`. -/
def calculateLinePosition (chartHeight yMin yMax price : ℚ) : ℚ :=
  let range := yMax - yMin
  let priceFrac := (price - yMin) / range
  let topOffset : ℚ := 20
  let bottomOffset : ℚ := 20
  let plotArea := chartHeight - topOffset - bottomOffset
  topOffset + plotArea * (1 - priceFrac)

/-- `DEFAULT_MMR = 0.005` from PriceChart.tsx. -/
def DEFAULT_MMR : ℚ := 5 / 1000

/-- `gatingOk = 1 / displayLeverage >= DEFAULT_MMR` from PriceChart.tsx
(the mmr kept as a parameter). -/
def gatingOk (displayLeverage mmr : ℚ) : Bool :=
  decide (mmr ≤ 1 / displayLeverage)

/-- `projectedLiq = !isPostTrade && gatingOk ? isolatedLiq(...) : null`
from PriceChart.tsx. -/
def projectedLiq (isPostTrade : Bool) (currentPrice displayLeverage : ℚ)
    (side : Side) (mmr : ℚ) : Option ℚ :=
  if !isPostTrade && gatingOk displayLeverage mmr then
    some (isolatedLiq currentPrice displayLeverage side mmr)
  else
    none

/-- `liqToShow = isPostTrade ? liquidationPrice : projectedLiq || undefined`
from PriceChart.tsx; the JavaScript `|| undefined` maps a falsy (zero or
null) projected value to undefined, modelled as `none`. -/
def liqToShow (isPostTrade : Bool) (liquidationPrice : Option ℚ)
    (currentPrice displayLeverage : ℚ) (side : Side) (mmr : ℚ) : Option ℚ :=
  if isPostTrade then liquidationPrice
  else
    match projectedLiq isPostTrade currentPrice displayLeverage side mmr with
    | some v => if v = 0 then none else some v
    | none => none

/-- Half-range of the current viewport, `range / 2` with
`range = yMax - yMin`, as computed in the recentering effect. -/
def halfRange (anchor leverage pnlSpan minBandBps : ℚ) : ℚ :=
  ((viewportFor anchor leverage pnlSpan minBandBps).yMax -
    (viewportFor anchor leverage pnlSpan minBandBps).yMin) / 2

/-- One evaluation of the hysteresis recentering effect in Tracked
(post-trade) mode, from PriceChart.tsx: `half = range / 2`; if
`half <= 0` do nothing; if `|currentPrice - anchor| >= 0.85 * half`,
the anchor jumps to `currentPrice`. -/
def recenterTick (leverage pnlSpan minBandBps anchor price : ℚ) : ℚ :=
  if halfRange anchor leverage pnlSpan minBandBps ≤ 0 then anchor
  else if 85 / 100 * halfRange anchor leverage pnlSpan minBandBps ≤ |price - anchor| then
    price
  else anchor

/-- The recentering effect applied to a sequence of price ticks in order. -/
def runRecenter (leverage pnlSpan minBandBps anchor : ℚ) (prices : List ℚ) : ℚ :=
  prices.foldl (recenterTick leverage pnlSpan minBandBps) anchor

theorem viewportFor_yMin (a l p m : ℚ) :
    (viewportFor a l p m).yMin = a - max (a * (p / max 1 l)) (a * (m / 10000)) := rfl

theorem viewportFor_yMax (a l p m : ℚ) :
    (viewportFor a l p m).yMax = a + max (a * (p / max 1 l)) (a * (m / 10000)) := rfl

theorem isolatedLiq_long (e l m : ℚ) :
    isolatedLiq e l Side.long m = e * (1 - 1 / max 1 l) / (1 - m) := rfl

theorem isolatedLiq_short (e l m : ℚ) :
    isolatedLiq e l Side.short m = e * (1 + 1 / max 1 l) / (1 + m) := rfl

/-- C3: for every anchor > 0, leverage ≥ 1 and config, `viewportFor`
returns exactly `[anchor - half, anchor + half]` with
`half = max (anchor * (pnlSpan / max 1 leverage)) (anchor * (minBandBps / 10000))`;
at anchor = 100, leverage = 10, pnlSpan = 1.2, minBandBps = 4 the result
is the viewport `{yMin := 88, yMax := 112}`. -/
theorem viewportFor_formula (anchor leverage pnlSpan minBandBps : ℚ)
    (ha : 0 < anchor) (hl : 1 ≤ leverage) :
    viewportFor anchor leverage pnlSpan minBandBps =
      { yMin := anchor - max (anchor * (pnlSpan / max 1 leverage))
          (anchor * (minBandBps / 10000)),
        yMax := anchor + max (anchor * (pnlSpan / max 1 leverage))
          (anchor * (minBandBps / 10000)) } ∧
    viewportFor 100 10 (12/10) 4 = { yMin := 88, yMax := 112 } := by
  constructor
  · rfl
  · show Viewport.mk _ _ = _
    norm_num [viewportFor, max_def]

/-- Witness for `viewportFor_formula` at anchor = 100, leverage = 10. -/
theorem viewportFor_formula_witness :
    viewportFor 100 10 (12/10) 4 = { yMin := 88, yMax := 112 } :=
  (viewportFor_formula 100 10 (12/10) 4 (by norm_num) (by norm_num)).2

/-- C4: for every entry > 0, `isolatedLiq` returns
`entry * (1 - 1/L) / (1 - mmr)` for long and
`entry * (1 + 1/L) / (1 + mmr)` for short, with `L = max 1 leverage`;
at entry = 100, leverage = 10, side = long, mmr = 0.005 the value is
within 0.01 of 90.45. -/
theorem isolatedLiq_formula (entry leverage mmr : ℚ) (he : 0 < entry) :
    isolatedLiq entry leverage Side.long mmr =
      entry * (1 - 1 / max 1 leverage) / (1 - mmr) ∧
    isolatedLiq entry leverage Side.short mmr =
      entry * (1 + 1 / max 1 leverage) / (1 + mmr) ∧
    |isolatedLiq 100 10 Side.long (5/1000) - 9045/100| < 1/100 := by
  refine ⟨rfl, rfl, ?_⟩
  rw [abs_sub_lt_iff]
  norm_num [isolatedLiq, max_def]

/-- Witness for `isolatedLiq_formula` at entry = 100. -/
theorem isolatedLiq_formula_witness :
    isolatedLiq 100 10 Side.long (5/1000) = 100 * (1 - 1 / max 1 10) / (1 - 5/1000) :=
  (isolatedLiq_formula 100 10 (5/1000) (by norm_num)).1

/-- C1 counterexample: with entry = 100 > 0, mmr = 0.005 fixed and
side = long, increasing leverage from 10 to 20 strictly INCREASES the
value of `isolatedLiq` (90.45... to 95.47...), so increasing leverage
does not strictly decrease it as the claim states. -/
theorem isolatedLiq_mono_cex :
    isolatedLiq 100 10 Side.long (5/1000) < isolatedLiq 100 20 Side.long (5/1000) ∧
    ¬ isolatedLiq 100 20 Side.long (5/1000) < isolatedLiq 100 10 Side.long (5/1000) := by
  norm_num [isolatedLiq, max_def]

/-- C1 amended: for entry > 0, -1 < mmr < 1 and leverages
1 ≤ l1 < l2, with side = long increasing leverage strictly INCREASES
`isolatedLiq` (the estimate moves toward the entry price), and with
side = short it strictly DECREASES it. -/
theorem isolatedLiq_mono (entry mmr l1 l2 : ℚ) (he : 0 < entry)
    (h1 : 1 ≤ l1) (h12 : l1 < l2) (hmn : -1 < mmr) (hmp : mmr < 1) :
    isolatedLiq entry l1 Side.long mmr < isolatedLiq entry l2 Side.long mmr ∧
    isolatedLiq entry l2 Side.short mmr < isolatedLiq entry l1 Side.short mmr := by
  have h2 : (1 : ℚ) ≤ l2 := le_of_lt (lt_of_le_of_lt h1 h12)
  have hl1 : (0 : ℚ) < l1 := lt_of_lt_of_le one_pos h1
  have hmax1 : max 1 l1 = l1 := max_eq_right h1
  have hmax2 : max 1 l2 = l2 := max_eq_right h2
  have hinv : 1 / l2 < 1 / l1 := one_div_lt_one_div_of_lt hl1 h12
  have hd1 : (0 : ℚ) < 1 - mmr := by linarith
  have hd2 : (0 : ℚ) < 1 + mmr := by linarith
  simp only [isolatedLiq_long, isolatedLiq_short, hmax1, hmax2]
  constructor
  · exact div_lt_div_of_pos_right (mul_lt_mul_of_pos_left (by linarith) he) hd1
  · exact div_lt_div_of_pos_right (mul_lt_mul_of_pos_left (by linarith) he) hd2

/-- Witness for `isolatedLiq_mono` at entry = 100, mmr = 0.005,
leverages 10 and 20. -/
theorem isolatedLiq_mono_witness :
    isolatedLiq 100 10 Side.short (5/1000) < isolatedLiq 100 5 Side.short (5/1000) :=
  (isolatedLiq_mono 100 (5/1000) 5 10 (by norm_num) (by norm_num)
    (by norm_num) (by norm_num) (by norm_num)).2

/-- C2 counterexample: at anchor = 100, leverage = 1 with the default
config (pnlSpan = 1.2, minBandBps = 4), the half-span is 120 > anchor
and `viewportFor` returns yMin = -20, which is not strictly positive. -/
theorem viewportFor_pos_cex : (viewportFor 100 1 (12/10) 4).yMin = -20 := by
  norm_num [viewportFor, max_def]

/-- C2 amended: for every anchor > 0 and leverage ≥ 1 with the default
config (pnlSpan = 1.2, minBandBps = 4), `viewportFor` returns
yMin < yMax and yMax strictly positive; yMin is strictly positive only
under the stronger assumption leverage > 1.2 (= pnlSpan). -/
theorem viewportFor_pos (anchor leverage : ℚ) (ha : 0 < anchor) (hl : 1 ≤ leverage) :
    (viewportFor anchor leverage (12/10) 4).yMin < (viewportFor anchor leverage (12/10) 4).yMax ∧
    0 < (viewportFor anchor leverage (12/10) 4).yMax ∧
    (12/10 < leverage → 0 < (viewportFor anchor leverage (12/10) 4).yMin) := by
  have hmax : max 1 leverage = leverage := max_eq_right hl
  have hl0 : (0 : ℚ) < leverage := lt_of_lt_of_le one_pos hl
  have hfloor : 0 < anchor * (4 / 10000) := by positivity
  have hhalf : 0 < max (anchor * (12/10 / leverage)) (anchor * (4 / 10000)) :=
    lt_of_lt_of_le hfloor (le_max_right _ _)
  simp only [viewportFor_yMin, viewportFor_yMax, hmax]
  refine ⟨by linarith, by linarith, fun hlev => ?_⟩
  have hspan : anchor * (12/10 / leverage) < anchor := by
    have h1 : 12/10 / leverage < 1 := (div_lt_one hl0).mpr hlev
    calc anchor * (12/10 / leverage) < anchor * 1 := mul_lt_mul_of_pos_left h1 ha
    _ = anchor := mul_one anchor
  have hfl : anchor * (4 / 10000) < anchor := by
    calc anchor * (4 / 10000) < anchor * 1 := by
          apply mul_lt_mul_of_pos_left _ ha; norm_num
    _ = anchor := mul_one anchor
  have hlt : max (anchor * (12/10 / leverage)) (anchor * (4 / 10000)) < anchor :=
    max_lt hspan hfl
  linarith

/-- Witness for `viewportFor_pos` at anchor = 100, leverage = 10. -/
theorem viewportFor_pos_witness :
    0 < (viewportFor 100 10 (12/10) 4).yMax :=
  (viewportFor_pos 100 10 (by norm_num) (by norm_num)).2.1

/-- C7: for every anchor > 0 and leverage ≥ 1 (config with pnlSpan > 0
and minBandBps ≥ 0, covering the defaults), `viewportFor` returns
yMin < anchor < yMax, and for fixed anchor and config the distance
yMax - anchor is non-increasing as leverage increases. -/
theorem viewportFor_compression (anchor pnlSpan minBandBps l1 l2 : ℚ)
    (ha : 0 < anchor) (hp : 0 < pnlSpan) (hb : 0 ≤ minBandBps)
    (h1 : 1 ≤ l1) (h12 : l1 ≤ l2) :
    (viewportFor anchor l1 pnlSpan minBandBps).yMin < anchor ∧
    anchor < (viewportFor anchor l1 pnlSpan minBandBps).yMax ∧
    (viewportFor anchor l2 pnlSpan minBandBps).yMax - anchor ≤
      (viewportFor anchor l1 pnlSpan minBandBps).yMax - anchor := by
  have h2 : (1 : ℚ) ≤ l2 := le_trans h1 h12
  have hmax1 : max 1 l1 = l1 := max_eq_right h1
  have hmax2 : max 1 l2 = l2 := max_eq_right h2
  have hl1 : (0 : ℚ) < l1 := lt_of_lt_of_le one_pos h1
  have hl2 : (0 : ℚ) < l2 := lt_of_lt_of_le one_pos h2
  simp only [viewportFor_yMin, viewportFor_yMax, hmax1, hmax2]
  have hhalf : 0 < max (anchor * (pnlSpan / l1)) (anchor * (minBandBps / 10000)) := by
    have h0 : 0 < anchor * (pnlSpan / l1) := by positivity
    exact lt_of_lt_of_le h0 (le_max_left _ _)
  have hmono : max (anchor * (pnlSpan / l2)) (anchor * (minBandBps / 10000)) ≤
      max (anchor * (pnlSpan / l1)) (anchor * (minBandBps / 10000)) := by
    apply max_le_max _ le_rfl
    apply mul_le_mul_of_nonneg_left _ (le_of_lt ha)
    exact div_le_div_of_nonneg_left (le_of_lt hp) hl1 h12
  exact ⟨by linarith, by linarith, by linarith⟩

/-- Witness for `viewportFor_compression` at anchor = 100, default
config, leverages 10 ≤ 20. -/
theorem viewportFor_compression_witness :
    (viewportFor 100 20 (12/10) 4).yMax - 100 ≤ (viewportFor 100 10 (12/10) 4).yMax - 100 :=
  (viewportFor_compression 100 (12/10) 4 10 20 (by norm_num) (by norm_num)
    (by norm_num) (by norm_num) (by norm_num)).2.2

/-- C10: for entry > 0, 0 ≤ mmr < 1 and leverage satisfying the gating
precondition mmr ≤ 1 / max 1 leverage, the long liquidation estimate is
at most the entry price and the short estimate is at least the entry
price: the estimate never lies on the profit side of the entry. -/
theorem isolatedLiq_side_bound (entry leverage mmr : ℚ) (he : 0 < entry)
    (hm0 : 0 ≤ mmr) (hm1 : mmr < 1) (hgate : mmr ≤ 1 / max 1 leverage) :
    isolatedLiq entry leverage Side.long mmr ≤ entry ∧
    entry ≤ isolatedLiq entry leverage Side.short mmr := by
  have hd1 : (0 : ℚ) < 1 - mmr := by linarith
  have hd2 : (0 : ℚ) < 1 + mmr := by linarith
  constructor
  · rw [isolatedLiq_long, div_le_iff₀ hd1]
    exact mul_le_mul_of_nonneg_left (by linarith) (le_of_lt he)
  · rw [isolatedLiq_short, le_div_iff₀ hd2]
    exact mul_le_mul_of_nonneg_left (by linarith) (le_of_lt he)

/-- Witness for `isolatedLiq_side_bound` at entry = 100, leverage = 10,
mmr = 0.005. -/
theorem isolatedLiq_side_bound_witness :
    isolatedLiq 100 10 Side.long (5/1000) ≤ 100 :=
  (isolatedLiq_side_bound 100 10 (5/1000) (by norm_num) (by norm_num)
    (by norm_num) (by rw [max_eq_right] <;> norm_num)).1

theorem calculateLinePosition_def (h a b p : ℚ) :
    calculateLinePosition h a b p = 20 + (h - 20 - 20) * (1 - (p - a) / (b - a)) := rfl

/-- C9: for every viewport with yMin < yMax (and a plot area of positive
height, chartHeight > 40), `calculateLinePosition` maps yMin to
top + plotArea = 20 + (chartHeight - 40) (bottom of the plot area) and
yMax to top = 20, and is strictly decreasing in price: price increases
upward while pixel offsets increase downward. -/
theorem calculateLinePosition_roundtrip (chartHeight yMin yMax : ℚ)
    (hv : yMin < yMax) (hh : 40 < chartHeight) :
    calculateLinePosition chartHeight yMin yMax yMin = 20 + (chartHeight - 20 - 20) ∧
    calculateLinePosition chartHeight yMin yMax yMax = 20 ∧
    ∀ p q : ℚ, p < q →
      calculateLinePosition chartHeight yMin yMax q <
        calculateLinePosition chartHeight yMin yMax p := by
  have hr : (0 : ℚ) < yMax - yMin := sub_pos.mpr hv
  have hrne : yMax - yMin ≠ 0 := ne_of_gt hr
  refine ⟨?_, ?_, fun p q hpq => ?_⟩
  · rw [calculateLinePosition_def, sub_self, zero_div]
    ring
  · rw [calculateLinePosition_def, div_self hrne]
    ring
  · rw [calculateLinePosition_def, calculateLinePosition_def]
    have hfrac : (p - yMin) / (yMax - yMin) < (q - yMin) / (yMax - yMin) :=
      div_lt_div_of_pos_right (sub_lt_sub_right hpq yMin) hr
    have harea : (0 : ℚ) < chartHeight - 20 - 20 := by linarith
    have := mul_lt_mul_of_pos_left (sub_lt_sub_left hfrac 1) harea
    linarith

/-- Witness for `calculateLinePosition_roundtrip` with the viewport
{88, 112} and chartHeight = 300. -/
theorem calculateLinePosition_roundtrip_witness :
    calculateLinePosition 300 88 112 112 = 20 :=
  (calculateLinePosition_roundtrip 300 88 112 (by norm_num) (by norm_num)).2.1

/-- C8: in pre-trade mode (isPostTrade = false), whenever the gating
condition fails (1 / leverage < mmr), `projectedLiq` is none — the
`isolatedLiq` branch is not taken — and `liqToShow` is none: the
rendering layer sees no estimate, never zero or a stale value. -/
theorem liqToShow_gating (liquidationPrice : Option ℚ)
    (currentPrice leverage mmr : ℚ) (side : Side)
    (hgate : 1 / leverage < mmr) :
    projectedLiq false currentPrice leverage side mmr = none ∧
    liqToShow false liquidationPrice currentPrice leverage side mmr = none := by
  have hg : gatingOk leverage mmr = false := by
    simp only [gatingOk, decide_eq_false_iff_not, not_le]
    exact hgate
  refine ⟨?_, ?_⟩ <;> simp [projectedLiq, liqToShow, hg]

/-- Witness for `liqToShow_gating` with leverage = 500, mmr = 0.005
(1/500 = 0.002 < 0.005), a stale post-trade value some 42 present. -/
theorem liqToShow_gating_witness :
    liqToShow false (some 42) 100 500 Side.long (5/1000) = none :=
  (liqToShow_gating (some 42) 100 500 (5/1000) Side.long (by norm_num)).2

/-- C5: for every anchor > 0 and leverage ≥ 1, with span = 1, `pnlTicks`
returns exactly 7 grid lines, ordered with strictly increasing pnlPct and
strictly increasing prices, the middle (index 3) entry equal to
(0, anchor), and the prices symmetric around the anchor (reflecting the
price list about the anchor reverses it). -/
theorem pnlTicks_grid (anchor leverage : ℚ) (ha : 0 < anchor) (hl : 1 ≤ leverage) :
    (pnlTicks anchor leverage 1).length = 7 ∧
    List.Chain' (fun p q : ℚ × ℚ => p.1 < q.1 ∧ p.2 < q.2) (pnlTicks anchor leverage 1) ∧
    (pnlTicks anchor leverage 1).get? 3 = some (0, anchor) ∧
    ((pnlTicks anchor leverage 1).map Prod.snd).map (fun p => 2 * anchor - p) =
      ((pnlTicks anchor leverage 1).map Prod.snd).reverse := by
  have hL : (0 : ℚ) < max 1 leverage := lt_of_lt_of_le one_pos (le_max_left 1 leverage)
  have key : ∀ a b : ℚ, a < b →
      anchor * (1 + a / max 1 leverage) < anchor * (1 + b / max 1 leverage) := by
    intro a b hab
    have hd := div_lt_div_of_pos_right hab hL
    apply mul_lt_mul_of_pos_left _ ha
    linarith
  have hexp : pnlTicks anchor leverage 1 =
      [(-100, anchor * (1 + (-1) / max 1 leverage)),
       (-50, anchor * (1 + (-(1/2)) / max 1 leverage)),
       (-25, anchor * (1 + (-(1/4)) / max 1 leverage)),
       (0, anchor),
       (25, anchor * (1 + (1/4) / max 1 leverage)),
       (50, anchor * (1 + (1/2) / max 1 leverage)),
       (100, anchor * (1 + 1 / max 1 leverage))] := by
    simp [pnlTicks]
    norm_num
  rw [hexp]
  refine ⟨rfl, ?_, rfl, ?_⟩
  · simp only [List.chain'_cons, List.chain'_singleton, and_true]
    refine ⟨⟨by norm_num, key _ _ (by norm_num)⟩, ⟨by norm_num, key _ _ (by norm_num)⟩,
      ⟨by norm_num, ?_⟩, ⟨by norm_num, ?_⟩,
      ⟨by norm_num, key _ _ (by norm_num)⟩, ⟨by norm_num, key _ _ (by norm_num)⟩⟩
    · have := key (-(1/4)) 0 (by norm_num)
      simpa using this
    · have := key 0 (1/4) (by norm_num)
      simpa using this
  · simp only [List.map_cons, List.map_nil, List.reverse_cons, List.reverse_nil,
      List.nil_append, List.cons_append, List.cons.injEq, and_true]
    refine ⟨by ring, by ring, by ring, by ring, by ring, by ring, by ring⟩

/-- Witness for `pnlTicks_grid` at anchor = 100, leverage = 10. -/
theorem pnlTicks_grid_witness :
    (pnlTicks 100 10 1).length = 7 ∧ (pnlTicks 100 10 1).get? 3 = some (0, 100) :=
  ⟨(pnlTicks_grid 100 10 (by norm_num) (by norm_num)).1,
   (pnlTicks_grid 100 10 (by norm_num) (by norm_num)).2.2.1⟩

/-- C6: in Tracked (post-trade) mode with a positive half-range, for any
sequence of price ticks that all stay strictly within 85% of the
half-range of the anchor, the anchor never changes; the first tick whose
distance from the anchor reaches or exceeds 85% of the half-range causes
exactly one recenter, after which the anchor equals that tick's price. -/
theorem recenter_hysteresis (leverage pnlSpan minBandBps anchor p : ℚ)
    (prices : List ℚ)
    (hhalf : 0 < halfRange anchor leverage pnlSpan minBandBps)
    (hstay : ∀ q ∈ prices,
      |q - anchor| < 85 / 100 * halfRange anchor leverage pnlSpan minBandBps)
    (hp : 85 / 100 * halfRange anchor leverage pnlSpan minBandBps ≤ |p - anchor|) :
    runRecenter leverage pnlSpan minBandBps anchor prices = anchor ∧
    runRecenter leverage pnlSpan minBandBps anchor (prices ++ [p]) = p := by
  have keep : ∀ q : ℚ,
      |q - anchor| < 85 / 100 * halfRange anchor leverage pnlSpan minBandBps →
      recenterTick leverage pnlSpan minBandBps anchor q = anchor := by
    intro q hq
    unfold recenterTick
    rw [if_neg (not_le.mpr hhalf), if_neg (not_le.mpr hq)]
  have stays : ∀ ps : List ℚ,
      (∀ q ∈ ps,
        |q - anchor| < 85 / 100 * halfRange anchor leverage pnlSpan minBandBps) →
      runRecenter leverage pnlSpan minBandBps anchor ps = anchor := by
    intro ps
    induction ps with
    | nil => intro _; rfl
    | cons q qs ih =>
      intro h
      have hq := h q (List.mem_cons_self q qs)
      show List.foldl (recenterTick leverage pnlSpan minBandBps)
        (recenterTick leverage pnlSpan minBandBps anchor q) qs = anchor
      rw [keep q hq]
      exact ih fun r hr => h r (List.mem_cons_of_mem q hr)
  refine ⟨stays prices hstay, ?_⟩
  unfold runRecenter
  rw [List.foldl_append]
  have hbase : List.foldl (recenterTick leverage pnlSpan minBandBps) anchor prices = anchor :=
    stays prices hstay
  rw [hbase]
  show recenterTick leverage pnlSpan minBandBps anchor p = p
  unfold recenterTick
  rw [if_neg (not_le.mpr hhalf), if_pos hp]

/-- Witness for `recenter_hysteresis`: anchor = 100, leverage = 10,
default config (half-range 12, threshold 10.2); ticks 105 and 95 stay
inside, tick 111 crosses and recenters the anchor to 111. -/
theorem recenter_hysteresis_witness :
    runRecenter 10 (12/10) 4 100 [105, 95] = 100 ∧
    runRecenter 10 (12/10) 4 100 ([105, 95] ++ [111]) = 111 :=
  recenter_hysteresis 10 (12/10) 4 100 111 [105, 95]
    (by norm_num [halfRange, viewportFor_yMax, viewportFor_yMin, max_def])
    (by
      intro q hq
      have h12 : halfRange 100 10 (12/10) 4 = 12 := by
        norm_num [halfRange, viewportFor_yMax, viewportFor_yMin, max_def]
      rw [h12, abs_sub_lt_iff]
      rcases List.mem_cons.mp hq with h | h
      · rw [h]; norm_num
      · rcases List.mem_cons.mp h with h2 | h2
        · rw [h2]; norm_num
        · simp at h2)
    (by
      have h12 : halfRange 100 10 (12/10) 4 = 12 := by
        norm_num [halfRange, viewportFor_yMax, viewportFor_yMin, max_def]
      rw [h12, le_abs]
      left
      norm_num)

end PriceChart
